import Mathlib

/-!
Verification of the feature/label construction, RSI computation, headline
fallback and train/test split implemented by the notebooks
`stock_sentiment_prediction.ipynb` and
`enhanced_stock_sentiment_prediction.ipynb`.

Modelling conventions for the shallow embedding:
* prices and sentiment scores are rationals (`ℚ`), standing for the real
  numbers the floating point program computes with;
* a missing value (pandas `NaN`) is `none` in an `Option ℚ` column;
* the `Date` column is modelled by the row index `idx : Nat` of the original
  price series, since trading dates are strictly increasing with the row index;
* where the program relies on IEEE float behaviour instead of checking for it
  (`NaN > x` is `False`; `g / 0 = +inf` for `g > 0`; `0 / 0 = NaN`), the
  embedding spells that behaviour out explicitly at the point of use.
-/

-- The batteries arithmetic on `Rat` is marked irreducible, which blocks
-- `decide`-style evaluation of concrete pipeline runs; re-mark it so that
-- witnesses can be checked by evaluation.
attribute [local semireducible] Rat.add Rat.mul Rat.sub Rat.inv Rat.ofScientific

set_option maxRecDepth 100000

namespace StockSent

/-- A row of the data frame after feature engineering but before any target
column exists: `Date` (as `idx`), `Close`, `MA20`, `MA50`, `RSI`, `Sentiment`.
The rolling columns can be `NaN`, hence `Option ℚ`. -/
structure RawRow where
  idx : Nat
  close : ℚ
  ma20 : Option ℚ
  ma50 : Option ℚ
  rsi : Option ℚ
  sentiment : ℚ
deriving DecidableEq

/-- A row after the `Target` column has been added. `Target` is produced by
`.astype(int)` on a boolean series, so it is an integer column with no
missing values. -/
structure LabRow where
  row : RawRow
  target : Nat
deriving DecidableEq

/-- Sum of `f` over the trailing window of positions `i, i-1, ..., i-w+1`,
the window a pandas `rolling(window=w)` aggregates at row `i`. -/
def windowSum (f : Nat → ℚ) (i w : Nat) : ℚ :=
  ((List.range w).map (fun j => f (i - j))).sum

/-- The column `Close.rolling(window=w).mean()` at row `i`: the mean of the
trailing `w` closes, `NaN` (`none`) while fewer than `w` observations exist. -/
def maAt (c : List ℚ) (w i : Nat) : Option ℚ :=
  if w ≤ i + 1 ∧ i < c.length then
    some (windowSum (fun j => c.getD j 0) i w / (w : ℚ))
  else none

/-- The gain series of `compute_RSI`: `delta.where(delta > 0, 0)` for
`delta = series.diff()`. The delta at row 0 is `NaN`, and since `NaN > 0`
evaluates to `False`, the `where` call replaces it by 0. -/
def gainAt (c : List ℚ) (i : Nat) : ℚ :=
  if i = 0 then 0 else max (c.getD i 0 - c.getD (i - 1) 0) 0

/-- The loss series of `compute_RSI`: `-delta.where(delta < 0, 0)`, i.e. the
absolute value of a negative delta and 0 otherwise; the `NaN` delta at row 0
again becomes 0. -/
def lossAt (c : List ℚ) (i : Nat) : ℚ :=
  if i = 0 then 0 else max (c.getD (i - 1) 0 - c.getD i 0) 0

/-- The 14-period rolling mean of the gain series, `NaN` for the first 13
rows (pandas `rolling(window=period).mean()` with the default
`min_periods = window`). -/
def meanGain (c : List ℚ) (i : Nat) : Option ℚ :=
  if 14 ≤ i + 1 ∧ i < c.length then some (windowSum (gainAt c) i 14 / 14) else none

/-- The 14-period rolling mean of the loss series, `NaN` for the first 13
rows. -/
def meanLoss (c : List ℚ) (i : Nat) : Option ℚ :=
  if 14 ≤ i + 1 ∧ i < c.length then some (windowSum (lossAt c) i 14 / 14) else none

/-- The RSI column `100 - (100 / (1 + RS))` with `RS = gain / loss`, as
`compute_RSI` (and the identical `compute_dummy_RSI`) produces it. The
program performs the division with no guard, so the embedding spells out the
IEEE float semantics the program relies on: with a positive mean gain and a
zero mean loss, `RS = +inf` and the RSI value is `100 - 100/(1 + inf) = 100`;
with both means zero, `RS = 0/0 = NaN` and the RSI value is `NaN` (`none`). -/
def rsiAt (c : List ℚ) (i : Nat) : Option ℚ :=
  match meanGain c i, meanLoss c i with
  | some g, some l =>
      if l = 0 then (if g = 0 then none else some 100)
      else some (100 - 100 / (1 + g / l))
  | _, _ => none

/-- The feature row at index `i` of the price series `c` with per-row
sentiment `s` (the simplified notebook computes one VADER score per row; the
enhanced notebook broadcasts a single scalar, i.e. a constant `s`). -/
def mkRow (c : List ℚ) (s : Nat → ℚ) (i : Nat) : RawRow :=
  ⟨i, c.getD i 0, maAt c 20 i, maAt c 50 i, rsiAt c i, s i⟩

/-- The data frame after feature engineering: one row per trading day. -/
def rawRows (c : List ℚ) (s : Nat → ℚ) : List RawRow :=
  (List.range c.length).map (mkRow c s)

/-- Whether a feature row is free of missing values. `Date`, `Close` and
`Sentiment` are never `NaN`, so only the rolling columns matter. -/
def rowDefined (r : RawRow) : Bool :=
  r.ma20.isSome && r.ma50.isSome && r.rsi.isSome

/-- The first `stock_data.dropna(inplace=True)`: drop every row that has a
missing value in some column. -/
def dropna1 (rs : List RawRow) : List RawRow := rs.filter rowDefined

/-- The `Target` value of a row with close `x`, given the rows after it:
`(Close.shift(-1) > Close).astype(int)` compares with the next row of the
frame; for the final row the shifted value is `NaN`, the comparison is
`False` and the cast yields 0. -/
def targetOf (x : ℚ) : List RawRow → Nat
  | [] => 0
  | r :: _ => if x < r.close then 1 else 0

/-- Add the `Target` column to the (already `dropna`-filtered) frame. -/
def addTarget : List RawRow → List LabRow
  | [] => []
  | r :: rest => ⟨r, targetOf r.close rest⟩ :: addTarget rest

/-- Whether a labelled row has a missing value in some column. The `Target`
column is integer-valued, so only the rolling columns can be missing. -/
def labRowHasNA (r : LabRow) : Bool := !(rowDefined r.row)

/-- The second `dropna(inplace=True)`, executed right after the `Target`
column is created. -/
def dropna2 (rs : List LabRow) : List LabRow := rs.filter (fun r => !(labRowHasNA r))

/-- The feature table handed to the splitter: feature engineering, first
`dropna`, `Target` creation, second `dropna`. -/
def featureTable (c : List ℚ) (s : Nat → ℚ) : List LabRow :=
  dropna2 (addTarget (dropna1 (rawRows c s)))

/-- The number of test rows of `train_test_split(..., test_size=0.2)`:
scikit-learn takes `ceil(0.2 * n)` rows for the test set. -/
def testSize (n : Nat) : Nat := (n + 4) / 5

/-- The split `train_test_split(X, y, test_size=0.2, shuffle=False)`: with
`shuffle=False` the training partition is the prefix of `n - ceil(0.2 * n)`
rows and the test partition is the remaining suffix. -/
def trainTestSplit (rs : List LabRow) : List LabRow × List LabRow :=
  (rs.take (rs.length - testSize rs.length), rs.drop (rs.length - testSize rs.length))

/-- An article of the NewsAPI response, as the program reads it. -/
structure Article where
  title : String
deriving DecidableEq

/-- The part of the HTTP response that `fetch_live_headlines` inspects:
the status code and the decoded article list. -/
structure NewsResponse where
  statusCode : Nat
  articles : List Article
deriving DecidableEq

/-- The function `fetch_live_headlines`: on status 200 return the article
titles, on any other status print an error and return the empty list. -/
def fetch_live_headlines (resp : NewsResponse) : List String :=
  if resp.statusCode = 200 then resp.articles.map Article.title else []

/-- The fixed demonstration headline set used as the fallback. -/
def defaultHeadlines : List String :=
  ["Apple launches new product amid market hype",
   "Analysts optimistic about AAPL performance"]

/-- The headline list the pipeline actually uses: the fetched list, replaced
by the demonstration set when it is empty
(`if not headlines: headlines = [...]`). -/
def pipelineHeadlines (resp : NewsResponse) : List String :=
  if fetch_live_headlines resp = [] then defaultHeadlines else fetch_live_headlines resp

/-- Definition following the words of the specification, for comparison with
`gainAt`: the gains series is the positive part of the day-over-day delta.
A delta only exists from row 1 on. -/
def specGainAt (c : List ℚ) (j : Nat) : ℚ :=
  max (c.getD j 0 - c.getD (j - 1) 0) 0

/-- Definition following the words of the specification: the loss series is
the absolute value of a negative day-over-day delta, zero otherwise. -/
def specLossAt (c : List ℚ) (j : Nat) : ℚ :=
  max (c.getD (j - 1) 0 - c.getD j 0) 0

/-- Definition following the words of the specification: the 14-period
trailing mean of the gains. The deltas only exist from row 1 on, so the
window of 14 deltas ending at row `i` exists once `i ≥ 14`. -/
def spec_meanGain (c : List ℚ) (i : Nat) : Option ℚ :=
  if 14 ≤ i ∧ i < c.length then some (windowSum (specGainAt c) i 14 / 14) else none

/-- Definition following the words of the specification: the 14-period
trailing mean of the losses. -/
def spec_meanLoss (c : List ℚ) (i : Nat) : Option ℚ :=
  if 14 ≤ i ∧ i < c.length then some (windowSum (specLossAt c) i 14 / 14) else none

/-- Default row used with `List.getD`. -/
def defaultRawRow : RawRow := ⟨0, 0, none, none, none, 0⟩

/-- Default labelled row used with `List.getD`. -/
def defaultLabRow : LabRow := ⟨defaultRawRow, 0⟩

/-- A strictly increasing 51-day price series, a concrete pipeline input. -/
def c51 : List ℚ := (List.range 51).map (fun i => (i : ℚ))

/-- The constant zero sentiment assignment. -/
def s0 : Nat → ℚ := fun _ => 0

/-- A constant 50-day price series. -/
def cConst50 : List ℚ := List.replicate 50 1

/-- A constant 14-day price series. -/
def cConst14 : List ℚ := List.replicate 14 1

/-- An alternating 16-day price series. -/
def cAlt16 : List ℚ := [1, 2, 1, 2, 1, 2, 1, 2, 1, 2, 1, 2, 1, 2, 1, 2]

/-- The labelled row of trading day 49 of the series `c51`. -/
def r49 : LabRow := ⟨⟨49, 49, some (79 / 2), some (49 / 2), some 100, 0⟩, 1⟩

/-- The labelled row of trading day 50, the final day, of the series `c51`. -/
def r50 : LabRow := ⟨⟨50, 50, some (81 / 2), some (51 / 2), some 100, 0⟩, 0⟩

example : featureTable c51 s0 = [r49, r50] := by decide

/-! ### Helper lemmas -/

/-- The rows of the labelled frame are exactly the rows of the input frame. -/
lemma addTarget_map_row (rs : List RawRow) : (addTarget rs).map LabRow.row = rs := by
  induction rs with
  | nil => rfl
  | cons r rest ih => simp [addTarget, ih]

/-- Adding the target column does not change the number of rows. -/
lemma addTarget_length (rs : List RawRow) : (addTarget rs).length = rs.length := by
  induction rs with
  | nil => rfl
  | cons r rest ih => simp [addTarget, ih]

/-- The target of every non-final row compares the close with the next row of
the same frame. -/
lemma addTarget_target_getD (rs : List RawRow) (i : Nat) (h : i + 1 < rs.length) :
    ((addTarget rs).getD i defaultLabRow).target =
      if (rs.getD i defaultRawRow).close < (rs.getD (i + 1) defaultRawRow).close then 1
      else 0 := by
  induction rs generalizing i with
  | nil => simp at h
  | cons r rest ih =>
    cases i with
    | zero =>
      cases rest with
      | nil => simp at h
      | cons r2 rest2 => simp [addTarget, targetOf]
    | succ n =>
      simp only [addTarget, List.getD_cons_succ]
      exact ih n (by simpa using h)

/-- The feature part of each labelled row, addressed positionally. -/
lemma addTarget_row_getD (rs : List RawRow) (i : Nat) (h : i < rs.length) :
    ((addTarget rs).getD i defaultLabRow).row = rs.getD i defaultRawRow := by
  induction rs generalizing i with
  | nil => simp at h
  | cons r rest ih =>
    cases i with
    | zero => simp [addTarget]
    | succ n =>
      simp only [addTarget, List.getD_cons_succ]
      exact ih n (by simpa using h)

/-- Every target value is 0 or 1: the column comes from a boolean cast. -/
lemma addTarget_target_mem (rs : List RawRow) (x : LabRow) (hx : x ∈ addTarget rs) :
    x.target = 0 ∨ x.target = 1 := by
  induction rs with
  | nil => simp [addTarget] at hx
  | cons r rest ih =>
    simp only [addTarget, List.mem_cons] at hx
    rcases hx with h | h
    · subst h
      cases rest with
      | nil => left; rfl
      | cons r2 rest2 =>
        simp only [targetOf]
        split
        · right; rfl
        · left; rfl
    · exact ih h

/-- Target columns agree whenever the close columns agree; the sentiment and
indicator columns play no role in the target. -/
lemma addTarget_targets_congr (rs rs2 : List RawRow)
    (h : rs.map RawRow.close = rs2.map RawRow.close) :
    (addTarget rs).map LabRow.target = (addTarget rs2).map LabRow.target := by
  induction rs generalizing rs2 with
  | nil =>
    cases rs2 with
    | nil => rfl
    | cons => simp at h
  | cons r rest ih =>
    cases rs2 with
    | nil => simp at h
    | cons r2 rest2 =>
      simp only [List.map_cons, List.cons.injEq] at h
      obtain ⟨h1, h2⟩ := h
      simp only [addTarget, List.map_cons, List.cons.injEq]
      refine ⟨?_, ih rest2 h2⟩
      cases rest with
      | nil =>
        cases rest2 with
        | nil => rfl
        | cons => simp at h2
      | cons a as =>
        cases rest2 with
        | nil => simp at h2
        | cons b bs =>
          simp only [List.map_cons, List.cons.injEq] at h2
          simp [targetOf, h1, h2.1]

/-- Filtering commutes with mapping when the predicate is read through the
mapped function. -/
lemma filter_of_map {α β : Type} (l : List α) (f : α → β) (p : β → Bool) :
    (l.map f).filter p = (l.filter (fun a => p (f a))).map f := by
  induction l with
  | nil => rfl
  | cons a l ih =>
    simp only [List.map_cons, List.filter_cons]
    cases hp : p (f a) <;> simp [hp, ih]

/-- Whether the feature row at index `i` of the series `c` has no missing
value; this predicate does not involve the sentiment column. -/
def definedIdx (c : List ℚ) (i : Nat) : Bool :=
  (maAt c 20 i).isSome && (maAt c 50 i).isSome && (rsiAt c i).isSome

/-- The first dropna keeps exactly the indices whose rolling columns are all
defined, a condition on the close column alone. -/
lemma dropna1_rawRows (c : List ℚ) (s : Nat → ℚ) :
    dropna1 (rawRows c s) = ((List.range c.length).filter (definedIdx c)).map (mkRow c s) := by
  unfold dropna1 rawRows
  rw [filter_of_map]
  rfl

/-- On a frame whose rows all pass the missing-value check, the second
dropna keeps every row: the target column is integer-valued, so it can
never reintroduce a missing value. This is why the second
`dropna(inplace=True)` of the notebooks is a no-op. -/
lemma dropna2_addTarget (rs : List RawRow) (hrs : ∀ r ∈ rs, rowDefined r = true) :
    dropna2 (addTarget rs) = addTarget rs := by
  apply List.filter_eq_self.mpr
  intro x hx
  have hxr : x.row ∈ rs := by
    rw [← addTarget_map_row rs]
    exact List.mem_map_of_mem _ hx
  simp [labRowHasNA, hrs _ hxr]

/-- The feature table is the labelled first-dropna frame: the second dropna
keeps every row. -/
lemma featureTable_eq (c : List ℚ) (s : Nat → ℚ) :
    featureTable c s = addTarget (dropna1 (rawRows c s)) := by
  unfold featureTable
  exact dropna2_addTarget _ (fun r hr => List.of_mem_filter hr)

/-- A positional element of a list is a member. -/
lemma getD_mem {α : Type} (l : List α) (i : Nat) (d : α) (h : i < l.length) :
    l.getD i d ∈ l := by
  rw [List.getD_eq_get l d h]
  exact List.get_mem l i h

/-- Positional form of `List.getD` through a `map`. -/
lemma getD_map {α β : Type} (l : List α) (f : α → β) (i : Nat) (d : β) (d2 : α)
    (h : i < l.length) : (l.map f).getD i d = f (l.getD i d2) := by
  rw [List.getD_eq_get _ d (by simpa using h), List.getD_eq_get _ d2 h]
  exact List.get_map f

/-- The date (index) column of the dropna-filtered frame is strictly
increasing: filtering preserves the order of the rows. -/
lemma dropna1_idx_pairwise (c : List ℚ) (s : Nat → ℚ) :
    (dropna1 (rawRows c s)).Pairwise (fun a b => a.idx < b.idx) := by
  rw [dropna1_rawRows]
  exact List.pairwise_map.mpr ((List.pairwise_lt_range _).filter _)

/-- The date (index) column of the feature table is strictly increasing. -/
lemma featureTable_idx_pairwise (c : List ℚ) (s : Nat → ℚ) :
    (featureTable c s).Pairwise (fun a b => a.row.idx < b.row.idx) := by
  rw [featureTable_eq]
  have h := dropna1_idx_pairwise c s
  rw [← addTarget_map_row (dropna1 (rawRows c s))] at h
  exact List.Pairwise.of_map LabRow.row (fun a b hab => hab) h

/-- For a strictly increasing close series, consecutive rows of the filtered
frame still carry strictly increasing closes, even when interior rows were
dropped. -/
lemma dropna1_close_lt (c : List ℚ) (s : Nat → ℚ)
    (hmono : ∀ i j : Nat, i < j → j < c.length → c.getD i 0 < c.getD j 0)
    (i : Nat) (h : i + 1 < (dropna1 (rawRows c s)).length) :
    ((dropna1 (rawRows c s)).getD i defaultRawRow).close <
      ((dropna1 (rawRows c s)).getD (i + 1) defaultRawRow).close := by
  rw [dropna1_rawRows] at h ⊢
  have hi1 : i + 1 < ((List.range c.length).filter (definedIdx c)).length := by
    simpa using h
  have hi : i < ((List.range c.length).filter (definedIdx c)).length :=
    Nat.lt_of_succ_lt hi1
  rw [getD_map _ _ i defaultRawRow 0 hi, getD_map _ _ (i + 1) defaultRawRow 0 hi1]
  have hpw : ((List.range c.length).filter (definedIdx c)).Pairwise (· < ·) :=
    (List.pairwise_lt_range _).filter _
  have hlt : ((List.range c.length).filter (definedIdx c)).getD i 0 <
      ((List.range c.length).filter (definedIdx c)).getD (i + 1) 0 := by
    rw [List.getD_eq_get _ _ hi, List.getD_eq_get _ _ hi1]
    exact List.pairwise_iff_get.mp hpw ⟨i, hi⟩ ⟨i + 1, hi1⟩ (by simp)
  have hub : ((List.range c.length).filter (definedIdx c)).getD (i + 1) 0 < c.length := by
    have hm := getD_mem ((List.range c.length).filter (definedIdx c)) (i + 1) 0 hi1
    exact List.mem_range.mp (List.mem_filter.mp hm).1
  exact hmono _ _ hlt hub

/-- The target of every non-final row of the feature table compares its close
with the close of the next row of the table. -/
lemma featureTable_target_getD (c : List ℚ) (s : Nat → ℚ) (i : Nat)
    (h : i + 1 < (featureTable c s).length) :
    ((featureTable c s).getD i defaultLabRow).target =
      if ((featureTable c s).getD i defaultLabRow).row.close <
          ((featureTable c s).getD (i + 1) defaultLabRow).row.close then 1
      else 0 := by
  rw [featureTable_eq] at h ⊢
  have hlen : i + 1 < (dropna1 (rawRows c s)).length := by
    rwa [addTarget_length] at h
  rw [addTarget_target_getD _ i hlen, addTarget_row_getD _ i (Nat.lt_of_succ_lt hlen),
    addTarget_row_getD _ (i + 1) hlen]

/-- Characterisation of the RSI column by its two rolling means. -/
lemma rsiAt_eq (c : List ℚ) (i : Nat) (g l : ℚ)
    (hg : meanGain c i = some g) (hl : meanLoss c i = some l) :
    rsiAt c i = if l = 0 then (if g = 0 then none else some 100)
                else some (100 - 100 / (1 + g / l)) := by
  unfold rsiAt
  rw [hg, hl]

/-! ### The claims -/

/-- C1: for every feature-table row except the final one, the `Target`
column is binary in `{0, 1}` and equals 1 exactly when the next row close
price exceeds the current row close price. -/
theorem target_binary_iff_next_close_up (c : List ℚ) (s : Nat → ℚ) (i : Nat)
    (h : i + 1 < (featureTable c s).length) :
    (((featureTable c s).getD i defaultLabRow).target = 0 ∨
      ((featureTable c s).getD i defaultLabRow).target = 1) ∧
    (((featureTable c s).getD i defaultLabRow).target = 1 ↔
      ((featureTable c s).getD i defaultLabRow).row.close <
        ((featureTable c s).getD (i + 1) defaultLabRow).row.close) := by
  rw [featureTable_target_getD c s i h]
  split
  case isTrue hab =>
    refine ⟨Or.inr rfl, ?_⟩
    constructor
    · intro _
      exact hab
    · intro _
      rfl
  case isFalse hab =>
    refine ⟨Or.inl rfl, ?_⟩
    constructor
    · intro h0
      exact absurd h0 (by decide)
    · intro hcl
      exact absurd hcl hab

/-- Witness for C1 at the concrete 51-day series: the first table row has
target 1, and 1 exactly because its close is below the next close. -/
theorem target_binary_iff_next_close_up_witness :
    0 + 1 < (featureTable c51 s0).length ∧
    ((((featureTable c51 s0).getD 0 defaultLabRow).target = 0 ∨
       ((featureTable c51 s0).getD 0 defaultLabRow).target = 1) ∧
     (((featureTable c51 s0).getD 0 defaultLabRow).target = 1 ↔
       ((featureTable c51 s0).getD 0 defaultLabRow).row.close <
         ((featureTable c51 s0).getD (0 + 1) defaultLabRow).row.close)) :=
  ⟨by decide, target_binary_iff_next_close_up c51 s0 0 (by decide)⟩

/-- C2 (code bug): on the concrete 51-day price series the row of the final
trading day, index 50, is still present — with target 0 — in the table handed
to the splitter. The second `dropna` cannot remove it because `astype(int)`
already turned the undefined comparison of the final row into the integer 0,
so the frame contains no missing value for `dropna` to act on. -/
theorem final_row_reaches_splitter :
    ((featureTable c51 s0).map (fun r => (r.row.idx, r.target))).getLast? = some (50, 0) ∧
    c51.length = 51 := by
  decide

/-- C3 is false as stated: at a constant 14-day series the 14-period mean
loss at row 13 is 0 and the RSI value there is the undefined value (`NaN`,
modelled as `none`) — no fixed policy replaces it, the undefined value is
produced and propagates into the frame. -/
theorem rsi_zero_loss_unguarded_cex :
    meanLoss cConst14 13 = some 0 ∧ rsiAt cConst14 13 = none := by
  decide

/-- C3 amended: the division `mean_gain / mean_loss` is not guarded. When
the 14-period mean loss is 0 the code relies on IEEE float semantics: with a
positive mean gain the ratio is infinite and the RSI value becomes 100, and
with a zero mean gain the ratio is `0/0 = NaN`, so the RSI value is
undefined and propagates (until `dropna` later removes the row). -/
theorem rsi_zero_loss_policy (c : List ℚ) (i : Nat) (h : meanLoss c i = some 0) :
    (meanGain c i = some 0 ∧ rsiAt c i = none) ∨
      (∃ g : ℚ, meanGain c i = some g ∧ ¬g = 0 ∧ rsiAt c i = some 100) := by
  have hml := h
  unfold meanLoss at h
  by_cases hc : 14 ≤ i + 1 ∧ i < c.length
  · have hg : meanGain c i = some (windowSum (gainAt c) i 14 / 14) := by
      unfold meanGain
      rw [if_pos hc]
    by_cases hgz : windowSum (gainAt c) i 14 / 14 = 0
    · left
      refine ⟨by rw [hg, hgz], ?_⟩
      rw [rsiAt_eq c i _ _ hg hml, if_pos rfl, hgz, if_pos rfl]
    · right
      exact ⟨_, hg, hgz, by rw [rsiAt_eq c i _ _ hg hml, if_pos rfl, if_neg hgz]⟩
  · rw [if_neg hc] at h
    exact absurd h (by simp)

/-- Witness for the amended C3 at a constant series: loss is 0, gain is 0,
and the RSI value is undefined. -/
theorem rsi_zero_loss_policy_witness :
    (meanGain cConst14 13 = some 0 ∧ rsiAt cConst14 13 = none) ∨
      (∃ g : ℚ, meanGain cConst14 13 = some g ∧ ¬g = 0 ∧ rsiAt cConst14 13 = some 100) :=
  rsi_zero_loss_policy cConst14 13 (by decide)

/-- C4: the 80/20 splitter preserves chronology: for any pipeline run, every
date (row index) in the test partition is strictly later than every date in
the training partition. -/
theorem split_preserves_chronology (c : List ℚ) (s : Nat → ℚ) (a b : LabRow)
    (ha : a ∈ (trainTestSplit (featureTable c s)).1)
    (hb : b ∈ (trainTestSplit (featureTable c s)).2) :
    a.row.idx < b.row.idx := by
  have hp := featureTable_idx_pairwise c s
  rw [← List.take_append_drop
      ((featureTable c s).length - testSize (featureTable c s).length)
      (featureTable c s)] at hp
  exact (List.pairwise_append.mp hp).2.2 a ha b hb

/-- Witness for C4 at the concrete 51-day series: day 49 lands in the
training partition, day 50 in the test partition, and 49 < 50. -/
theorem split_preserves_chronology_witness :
    r49 ∈ (trainTestSplit (featureTable c51 s0)).1 ∧
    r50 ∈ (trainTestSplit (featureTable c51 s0)).2 ∧
    r49.row.idx < r50.row.idx :=
  ⟨by decide, by decide,
    split_preserves_chronology c51 s0 r49 r50 (by decide) (by decide)⟩

/-- C5: wherever the rolling means of the reference RSI definition are
defined — and the mean loss is nonzero, so that the reference ratio itself
is defined (the zero-loss case is the subject of C3) — the RSI column of
`compute_RSI` equals the reference formula
`100 - 100 / (1 + mean_gain / mean_loss)`. -/
theorem rsi_matches_spec_formula (c : List ℚ) (i : Nat) (g l : ℚ)
    (hg : spec_meanGain c i = some g) (hl : spec_meanLoss c i = some l)
    (hlz : ¬l = 0) :
    rsiAt c i = some (100 - 100 / (1 + g / l)) := by
  unfold spec_meanGain at hg
  unfold spec_meanLoss at hl
  by_cases hc : 14 ≤ i ∧ i < c.length
  · rw [if_pos hc] at hg hl
    have h14 : 14 ≤ i := hc.1
    have hgv : windowSum (specGainAt c) i 14 / 14 = g := by injection hg
    have hlv : windowSum (specLossAt c) i 14 / 14 = l := by injection hl
    have hc2 : 14 ≤ i + 1 ∧ i < c.length := ⟨Nat.le_succ_of_le hc.1, hc.2⟩
    have hgain : windowSum (gainAt c) i 14 = windowSum (specGainAt c) i 14 := by
      unfold windowSum
      congr 1
      apply List.map_congr_left
      intro j hj
      have hj14 : j < 14 := List.mem_range.mp hj
      have hnz : ¬(i - j = 0) := by omega
      unfold gainAt specGainAt
      rw [if_neg hnz]
    have hloss : windowSum (lossAt c) i 14 = windowSum (specLossAt c) i 14 := by
      unfold windowSum
      congr 1
      apply List.map_congr_left
      intro j hj
      have hj14 : j < 14 := List.mem_range.mp hj
      have hnz : ¬(i - j = 0) := by omega
      unfold lossAt specLossAt
      rw [if_neg hnz]
    have hmg : meanGain c i = some g := by
      unfold meanGain
      rw [if_pos hc2, hgain, hgv]
    have hml : meanLoss c i = some l := by
      unfold meanLoss
      rw [if_pos hc2, hloss, hlv]
    rw [rsiAt_eq c i g l hmg hml, if_neg hlz]
  · rw [if_neg hc] at hg
    exact absurd hg (by simp)

/-- Witness for C5 at the alternating 16-day series: at row 14 both spec
means equal 1/2 and the RSI value is 100 - 100/(1 + 1) = 50. -/
theorem rsi_matches_spec_formula_witness :
    rsiAt cAlt16 14 = some (100 - 100 / (1 + (1 / 2 : ℚ) / (1 / 2))) :=
  rsi_matches_spec_formula cAlt16 14 (1 / 2) (1 / 2) (by decide) (by decide) (by decide)

/-- C6 is false as stated: the constant 50-day series has length at least 50
and its feature table is empty — every RSI value is the undefined `0/0`, so
the first `dropna` removes every row. -/
theorem feature_table_nonempty_cex :
    50 ≤ cConst50.length ∧ featureTable cConst50 s0 = [] := by
  decide

/-- C6 amended: for any price sequence of length at least 50 the feature
table contains no undefined value in any column — every rolling column of a
surviving row is defined and every target is binary — but the table may be
empty (see the constant-series counterexample), so non-emptiness does not
hold. -/
theorem feature_table_no_undefined (c : List ℚ) (s : Nat → ℚ) (hlen : 50 ≤ c.length)
    (r : LabRow) (hr : r ∈ featureTable c s) :
    r.row.ma20.isSome = true ∧ r.row.ma50.isSome = true ∧ r.row.rsi.isSome = true ∧
      (r.target = 0 ∨ r.target = 1) := by
  have hdef : rowDefined r.row = true := by
    have hr2 := hr
    unfold featureTable dropna2 at hr2
    have hfil := List.of_mem_filter hr2
    simpa [labRowHasNA] using hfil
  have htar : r.target = 0 ∨ r.target = 1 := by
    have hr3 := hr
    rw [featureTable_eq] at hr3
    exact addTarget_target_mem _ r hr3
  have hsplit := hdef
  simp only [rowDefined, Bool.and_eq_true] at hsplit
  exact ⟨hsplit.1.1, hsplit.1.2, hsplit.2, htar⟩

/-- Witness for the amended C6 at the concrete 51-day series and its first
table row. -/
theorem feature_table_no_undefined_witness :
    50 ≤ c51.length ∧
    (r49.row.ma20.isSome = true ∧ r49.row.ma50.isSome = true ∧
      r49.row.rsi.isSome = true ∧ (r49.target = 0 ∨ r49.target = 1)) :=
  ⟨by decide, feature_table_no_undefined c51 s0 (by decide) r49 (by decide)⟩

/-- C7: headline retrieval returns the article titles on a success status,
returns the empty list on any other status, and the pipeline substitutes the
fixed demonstration set whenever the retrieved list is empty, so the
sentiment step always receives a non-empty headline list. -/
theorem headlines_fallback_nonempty (resp : NewsResponse) :
    (resp.statusCode = 200 →
      fetch_live_headlines resp = resp.articles.map Article.title) ∧
    (¬resp.statusCode = 200 → fetch_live_headlines resp = []) ∧
    pipelineHeadlines resp ≠ [] := by
  refine ⟨fun h => by simp [fetch_live_headlines, h],
    fun h => by simp [fetch_live_headlines, h], ?_⟩
  unfold pipelineHeadlines
  split
  · simp [defaultHeadlines]
  · assumption

/-- Witness for C7 at a failing response: the pipeline still hands a
non-empty headline list to the sentiment step. -/
theorem headlines_fallback_nonempty_witness :
    pipelineHeadlines ⟨404, []⟩ ≠ [] :=
  (headlines_fallback_nonempty ⟨404, []⟩).2.2

/-- C8: the label column is a function of the close series alone — two runs
on the same closes that differ only in the sentiment values produce
identical `Target` columns. -/
theorem target_independent_of_sentiment (c : List ℚ) (s1 s2 : Nat → ℚ) :
    (featureTable c s1).map LabRow.target = (featureTable c s2).map LabRow.target := by
  rw [featureTable_eq, featureTable_eq]
  apply addTarget_targets_congr
  rw [dropna1_rawRows, dropna1_rawRows, List.map_map, List.map_map]
  apply List.map_congr_left
  intro j hj
  rfl

/-- C9: for a strictly increasing close series, every label in the feature
table except the one of the final row equals 1. -/
theorem increasing_closes_labels_one (c : List ℚ) (s : Nat → ℚ)
    (hmono : ∀ i j : Nat, i < j → j < c.length → c.getD i 0 < c.getD j 0)
    (i : Nat) (h : i + 1 < (featureTable c s).length) :
    ((featureTable c s).getD i defaultLabRow).target = 1 := by
  have hlen : i + 1 < (dropna1 (rawRows c s)).length := by
    rw [featureTable_eq, addTarget_length] at h
    exact h
  have hclose := dropna1_close_lt c s hmono i hlen
  have e1 : ((featureTable c s).getD i defaultLabRow).row =
      (dropna1 (rawRows c s)).getD i defaultRawRow := by
    rw [featureTable_eq]
    exact addTarget_row_getD _ i (Nat.lt_of_succ_lt hlen)
  have e2 : ((featureTable c s).getD (i + 1) defaultLabRow).row =
      (dropna1 (rawRows c s)).getD (i + 1) defaultRawRow := by
    rw [featureTable_eq]
    exact addTarget_row_getD _ (i + 1) hlen
  rw [featureTable_target_getD c s i h, e1, e2, if_pos hclose]

/-- Witness for C9 at the concrete strictly increasing 51-day series. -/
theorem increasing_closes_labels_one_witness :
    0 + 1 < (featureTable c51 s0).length ∧
    ((featureTable c51 s0).getD 0 defaultLabRow).target = 1 :=
  ⟨by decide, increasing_closes_labels_one c51 s0 (by
      intro i j hij hj
      have h51 : c51.length = 51 := by decide
      rw [h51] at hj
      have hall : ∀ j : Nat, j < 51 → ∀ i : Nat, i < j → c51.getD i 0 < c51.getD j 0 := by
        decide
      exact hall j hj i hij) 0 (by decide)⟩

/-- C10: the splitter is an exact order-preserving partition: concatenating
the training partition and the test partition reproduces the feature table
exactly, so every row appears in exactly one partition, in order. -/
theorem split_exact_partition (rs : List LabRow) (h : rs ≠ []) :
    (trainTestSplit rs).1 ++ (trainTestSplit rs).2 = rs :=
  List.take_append_drop _ rs

/-- Witness for C10 at a one-row table. -/
theorem split_exact_partition_witness :
    ([defaultLabRow] : List LabRow) ≠ [] ∧
    (trainTestSplit [defaultLabRow]).1 ++ (trainTestSplit [defaultLabRow]).2 =
      [defaultLabRow] :=
  ⟨by decide, split_exact_partition [defaultLabRow] (by decide)⟩

end StockSent
